import Mathlib

/-!
Shallow embedding of `qdrant_manage_3.py`, a command-line administrative
client for a Qdrant vector database.  JSON values are modelled by the
inductive type `Json`; Python truthiness, `dict.get` with default,
`d[k]` item access (which raises on a missing key or on a non-dict
receiver), string slicing `s[:n]` and `str.lower` are modelled by
`Json.truthy`, `pyGet`, `getItem`, `strTake` and `pyLower`.  Each action
function of the script is embedded as a Lean function from the parsed
arguments, the (parameterised) HTTP responses and the
interactive-confirmation input to the list of HTTP requests issued and
the messages printed; a run that would raise an uncaught Python
exception is modelled as `none`.
-/

/-- JSON values, as produced by `json.loads` / consumed by `json.dumps`.
Numbers are modelled as integers (no behaviour relevant here involves
fractional values). -/
inductive Json where
  | null : Json
  | bool : Bool → Json
  | num : Int → Json
  | str : String → Json
  | arr : List Json → Json
  | obj : List (String × Json) → Json
deriving Repr

mutual

/-- Decidable equality on `Json`, by structural recursion (so that it
evaluates inside the kernel). -/
def Json.decEq : (a b : Json) → Decidable (a = b)
  | .null, .null => isTrue rfl
  | .bool a, .bool b =>
    if h : a = b then isTrue (h ▸ rfl) else isFalse (fun hh => h (Json.bool.inj hh))
  | .num a, .num b =>
    if h : a = b then isTrue (h ▸ rfl) else isFalse (fun hh => h (Json.num.inj hh))
  | .str a, .str b =>
    if h : a = b then isTrue (h ▸ rfl) else isFalse (fun hh => h (Json.str.inj hh))
  | .arr a, .arr b =>
    match Json.decEqList a b with
    | isTrue h => isTrue (h ▸ rfl)
    | isFalse h => isFalse (fun hh => h (Json.arr.inj hh))
  | .obj a, .obj b =>
    match Json.decEqKvs a b with
    | isTrue h => isTrue (h ▸ rfl)
    | isFalse h => isFalse (fun hh => h (Json.obj.inj hh))
  | .null, .bool _ => isFalse (fun h => Json.noConfusion h)
  | .null, .num _ => isFalse (fun h => Json.noConfusion h)
  | .null, .str _ => isFalse (fun h => Json.noConfusion h)
  | .null, .arr _ => isFalse (fun h => Json.noConfusion h)
  | .null, .obj _ => isFalse (fun h => Json.noConfusion h)
  | .bool _, .null => isFalse (fun h => Json.noConfusion h)
  | .bool _, .num _ => isFalse (fun h => Json.noConfusion h)
  | .bool _, .str _ => isFalse (fun h => Json.noConfusion h)
  | .bool _, .arr _ => isFalse (fun h => Json.noConfusion h)
  | .bool _, .obj _ => isFalse (fun h => Json.noConfusion h)
  | .num _, .null => isFalse (fun h => Json.noConfusion h)
  | .num _, .bool _ => isFalse (fun h => Json.noConfusion h)
  | .num _, .str _ => isFalse (fun h => Json.noConfusion h)
  | .num _, .arr _ => isFalse (fun h => Json.noConfusion h)
  | .num _, .obj _ => isFalse (fun h => Json.noConfusion h)
  | .str _, .null => isFalse (fun h => Json.noConfusion h)
  | .str _, .bool _ => isFalse (fun h => Json.noConfusion h)
  | .str _, .num _ => isFalse (fun h => Json.noConfusion h)
  | .str _, .arr _ => isFalse (fun h => Json.noConfusion h)
  | .str _, .obj _ => isFalse (fun h => Json.noConfusion h)
  | .arr _, .null => isFalse (fun h => Json.noConfusion h)
  | .arr _, .bool _ => isFalse (fun h => Json.noConfusion h)
  | .arr _, .num _ => isFalse (fun h => Json.noConfusion h)
  | .arr _, .str _ => isFalse (fun h => Json.noConfusion h)
  | .arr _, .obj _ => isFalse (fun h => Json.noConfusion h)
  | .obj _, .null => isFalse (fun h => Json.noConfusion h)
  | .obj _, .bool _ => isFalse (fun h => Json.noConfusion h)
  | .obj _, .num _ => isFalse (fun h => Json.noConfusion h)
  | .obj _, .str _ => isFalse (fun h => Json.noConfusion h)
  | .obj _, .arr _ => isFalse (fun h => Json.noConfusion h)
termination_by structural a => a

/-- Decidable equality on lists of JSON values. -/
def Json.decEqList : (a b : List Json) → Decidable (a = b)
  | [], [] => isTrue rfl
  | [], _ :: _ => isFalse (fun h => List.noConfusion h)
  | _ :: _, [] => isFalse (fun h => List.noConfusion h)
  | x :: xs, y :: ys =>
    match Json.decEq x y, Json.decEqList xs ys with
    | isTrue h1, isTrue h2 => isTrue (h1 ▸ h2 ▸ rfl)
    | isFalse h1, _ => isFalse (fun h => h1 (List.cons.inj h).1)
    | _, isFalse h2 => isFalse (fun h => h2 (List.cons.inj h).2)
termination_by structural a => a

/-- Decidable equality on JSON object field lists. -/
def Json.decEqKvs : (a b : List (String × Json)) → Decidable (a = b)
  | [], [] => isTrue rfl
  | [], _ :: _ => isFalse (fun h => List.noConfusion h)
  | _ :: _, [] => isFalse (fun h => List.noConfusion h)
  | (k, v) :: xs, (l, w) :: ys =>
    match Json.decEq v w, Json.decEqKvs xs ys with
    | isTrue h1, isTrue h2 =>
      if h0 : k = l then isTrue (h0 ▸ h1 ▸ h2 ▸ rfl)
      else isFalse (fun h => h0 (congrArg Prod.fst (List.cons.inj h).1))
    | isFalse h1, _ => isFalse (fun h => h1 (congrArg Prod.snd (List.cons.inj h).1))
    | _, isFalse h2 => isFalse (fun h => h2 (List.cons.inj h).2)
termination_by structural a => a

end

instance : DecidableEq Json := Json.decEq

/-- Python truthiness of a JSON value: `None`, `False`, `0`, `""`, `[]`
and the empty dict are falsy, everything else is truthy. -/
def Json.truthy : Json → Bool
  | .null => false
  | .bool b => b
  | .num n => n != 0
  | .str s => s != ""
  | .arr l => !l.isEmpty
  | .obj l => !l.isEmpty

/-- First-match association lookup in a JSON object field list. -/
def assocLookup : List (String × Json) → String → Option Json
  | [], _ => none
  | (k, v) :: rest, key => if k = key then some v else assocLookup rest key

/-- Python `d.get(key, default)` on a dict `d`. -/
def pyGet (kvs : List (String × Json)) (key : String) (default : Json) : Json :=
  (assocLookup kvs key).getD default

/-- Python item access `j[key]`: `none` models the `KeyError` raised on a
missing key and the `TypeError` raised when `j` is not a dict. -/
def getItem (j : Json) (key : String) : Option Json :=
  match j with
  | .obj kvs => assocLookup kvs key
  | _ => none

/-- Python `a or b`: the first operand when it is truthy, else the second. -/
def pyOr (a b : Json) : Json :=
  if a.truthy then a else b

/-- Python string slicing `s[:n]` (by code points, as in Python 3). -/
def strTake (s : String) (n : Nat) : String :=
  String.mk (s.data.take n)

/-- Python `str.lower`, char-wise.  `Char.toLower` only lowercases ASCII,
but `Y` is the only character whose Python lowercasing is `y`, so the
embedding agrees with Python on every comparison against `"y"`. -/
def pyLower (s : String) : String :=
  String.mk (s.data.map Char.toLower)

/-- Python truthiness of an `Optional[str]` argparse value: `None` and
the empty string are falsy. -/
def ostr_truthy : Option String → Bool
  | none => false
  | some s => s != ""

/-- `make_url(host, port, path, https)` from the script: formats
`protocol://host:port` followed by `path`, with protocol `https` or
`http` according to the flag. -/
def make_url (host : String) (port : Int) (path : String) (https : Bool) : String :=
  (if https then "https" else "http") ++ "://" ++ host ++ ":" ++ toString port ++ path

/-- HTTP methods used by the script. -/
inductive Method where
  | get : Method
  | post : Method
deriving DecidableEq, Repr

/-- An HTTP request issued by the script: method, full URL (built with
`make_url`), and the JSON body passed via the `json=` keyword (`none`
for the body-less GET of the list action). -/
structure Request where
  method : Method
  url : String
  body : Option Json
deriving DecidableEq, Repr

/-- An HTTP response as seen by the script: `status` is `r.status_code`,
`body` is `r.json()` and `text` is `r.text`. -/
structure Resp where
  status : Nat
  body : Json
  text : String

/-- The parsed command-line arguments (`argparse` namespace).  String
options default to `none`; `port`, `batch_size` and `limit` are parsed
with `type=int`. -/
structure Args where
  host : String
  port : Int
  https : Bool
  api_key : Option String
  list : Bool
  view : Bool
  inspect : Bool
  delete_all : Bool
  delete_chunk : Bool
  collection : Option String
  chunk_field : Option String
  value : Option String
  batch_size : Int
  limit : Int
  yes : Bool

/-- The request headers: `Content-Type` always, plus `api-key` when the
option is set (and truthy). -/
def headersFor (a : Args) : List (String × String) :=
  match a.api_key with
  | some k => if k ≠ "" then [("Content-Type", "application/json"), ("api-key", k)] else [("Content-Type", "application/json")]
  | none => [("Content-Type", "application/json")]

/-- Extraction of `r.json().get("result", {}).get("points", [])` from a
scroll-response body.  `none` models the `AttributeError` raised when
`.get` is called on a non-dict `result` value; a non-list, non-falsy
`points` value, over which the later Python code could not iterate as a
point list, is also modelled as ill-formed. -/
def getPoints (body : Json) : Option (List Json) :=
  match body with
  | .obj kvs =>
    match assocLookup kvs "result" with
    | none => some []
    | some (.obj rkvs) =>
      match assocLookup rkvs "points" with
      | none => some []
      | some (.arr ps) => some ps
      | some v => if v.truthy then none else some []
    | some _ => none
  | _ => none

/-- The document-identifier resolution from `view_collection`:
`payload.get("doc_id") or payload.get("source") or payload.get("filename") or "UNKNOWN"`. -/
def resolveDocId (payload : List (String × Json)) : Json :=
  pyOr (pyGet payload "doc_id" Json.null)
    (pyOr (pyGet payload "source" Json.null)
      (pyOr (pyGet payload "filename" Json.null) (Json.str "UNKNOWN")))

/-- The chunk text collected by `view_collection`:
`payload.get("text") or ""`. -/
def chunkText (payload : List (String × Json)) : Json :=
  pyOr (pyGet payload "text" Json.null) (Json.str "")

/-- `p.get("payload", {})` on a point followed by the dict operations
applied to the result: `none` models the fault raised when `p` is not a
dict or its `payload` value is neither absent nor a dict. -/
def pointPayload (p : Json) : Option (List (String × Json)) :=
  match p with
  | .obj kvs =>
    match pyGet kvs "payload" (Json.obj []) with
    | .obj pk => some pk
    | _ => none
  | _ => none

/-- `doc_map.setdefault(doc_id, []).append(t)` on an insertion-ordered
dict represented as an association list: append `t` to the entry of key
`k`, creating the entry at the end if absent. -/
def addChunk (m : List (Json × List Json)) (k : Json) (t : Json) : List (Json × List Json) :=
  match m with
  | [] => [(k, [t])]
  | (k1, ts) :: rest => if k1 = k then (k1, ts ++ [t]) :: rest else (k1, ts) :: addChunk rest k t

/-- The grouping loop of `view_collection` over the returned points,
starting from the dict `m`. -/
def viewGroupsAux (m : List (Json × List Json)) : List Json → Option (List (Json × List Json))
  | [] => some m
  | p :: rest =>
    match pointPayload p with
    | none => none
    | some kvs => viewGroupsAux (addChunk m (resolveDocId kvs) (chunkText kvs)) rest

/-- The `doc_map` built by `view_collection` from the returned points
(`none` when the loop would raise on an ill-formed point). -/
def viewGroups (points : List Json) : Option (List (Json × List Json)) :=
  viewGroupsAux [] points

/-- The per-document sample of `view_collection`:
`(chunks[0][:100] + "...") if chunks and chunks[0] else "(no text)"`.
`none` models the `TypeError` raised when the first chunk is truthy but
not a string. -/
def sampleOf (chunks : List Json) : Option String :=
  match chunks with
  | [] => some "(no text)"
  | c :: _ =>
    if c.truthy then
      match c with
      | .str s => some (strTake s 100 ++ "...")
      | _ => none
    else some "(no text)"

/-- The value formatting of `inspect_collection`: a string longer than
150 characters becomes its first 150 characters plus `...`; any other
value is kept as-is. -/
def formatVal (v : Json) : Json :=
  match v with
  | .str s => if 150 < s.length then Json.str (strTake s 150 ++ "...") else v
  | _ => v

/-- The key/value pairs printed for one point by `inspect_collection`,
in payload order. -/
def inspectRenderPairs (kvs : List (String × Json)) : List (String × Json) :=
  kvs.map (fun kv => (kv.1, formatVal kv.2))

/-- The id-extraction comprehension `[p["id"] for p in points]` of
`delete_chunk`: `none` models the `KeyError`/`TypeError` raised when
some point has no `"id"` key or is not a dict. -/
def extractIds : List Json → Option (List Json)
  | [] => some []
  | p :: rest =>
    match getItem p "id" with
    | none => none
    | some i =>
      match extractIds rest with
      | none => none
      | some is => some (i :: is)

/-- The scroll request issued by `view_collection`. -/
def viewScrollReq (a : Args) (c : String) : Request :=
  ⟨Method.post, make_url a.host a.port ("/collections/" ++ c ++ "/points/scroll") a.https,
    some (Json.obj [("limit", Json.num a.batch_size), ("with_payload", Json.bool true),
      ("with_vector", Json.bool false)])⟩

/-- The discovery scroll request issued by `delete_chunk`: exact-match
`must` filter on the field/value, no payload, no vector, limit 1000. -/
def chunkScrollReq (a : Args) (c f v : String) : Request :=
  ⟨Method.post, make_url a.host a.port ("/collections/" ++ c ++ "/points/scroll") a.https,
    some (Json.obj
      [("filter", Json.obj [("must", Json.arr [Json.obj
          [("key", Json.str f), ("match", Json.obj [("value", Json.str v)])]])]),
       ("with_payload", Json.bool false),
       ("with_vector", Json.bool false),
       ("limit", Json.num 1000)])⟩

/-- The delete request issued by `delete_chunk`: explicit id list. -/
def chunkDeleteReq (a : Args) (c : String) (ids : List Json) : Request :=
  ⟨Method.post, make_url a.host a.port ("/collections/" ++ c ++ "/points/delete") a.https,
    some (Json.obj [("points", Json.arr ids)])⟩

/-- The delete request issued by `delete_all`: empty filter. -/
def deleteAllReq (a : Args) (c : String) : Request :=
  ⟨Method.post, make_url a.host a.port ("/collections/" ++ c ++ "/points/delete") a.https,
    some (Json.obj [("filter", Json.obj [])])⟩

/-- `delete_all(args, headers)`: requests issued and messages printed,
given the confirmation line the interactive prompt would read and the
response the delete request would receive. -/
def delete_all (a : Args) (confirm : String) (resp : Resp) : List Request × List String :=
  if !(ostr_truthy a.collection) then ([], ["❌ Please specify --collection"])
  else
    let c := a.collection.getD ""
    if !a.yes && pyLower confirm != "y" then ([], ["Cancelled."])
    else
      ([deleteAllReq a c],
       if resp.status = 200 then ["🗑️  All vectors deleted from collection \x27" ++ c ++ "\x27."]
       else ["❌ Delete failed: " ++ resp.text])

/-- `delete_chunk(args, headers)`: requests issued and messages printed,
given the confirmation line the prompt would read and the responses the
scroll and delete requests would receive.  `none` models an uncaught
exception (ill-formed scroll body or a point without an `"id"` key). -/
def delete_chunk (a : Args) (confirm : String) (sr dr : Resp) :
    Option (List Request × List String) :=
  if !(ostr_truthy a.collection) then some ([], ["❌ Please specify --collection"])
  else if !(ostr_truthy a.chunk_field) || !(ostr_truthy a.value) then
    some ([], ["❌ Must specify both --chunk-field and --value for targeted delete."])
  else
    let c := a.collection.getD ""
    let f := a.chunk_field.getD ""
    let v := a.value.getD ""
    let req := chunkScrollReq a c f v
    if sr.status ≠ 200 then some ([req], ["❌ Query failed: " ++ sr.text])
    else
      match getPoints sr.body with
      | none => none
      | some points =>
        if points.isEmpty then
          some ([req], ["⚠️ No matching vectors found for " ++ f ++ " = " ++ v])
        else
          match extractIds points with
          | none => none
          | some ids =>
            let foundMsg := "Found " ++ toString ids.length ++ " vectors for " ++ f ++ " = " ++ v
            if !a.yes && pyLower confirm != "y" then some ([req], [foundMsg, "Cancelled."])
            else
              some ([req, chunkDeleteReq a c ids],
                [foundMsg,
                 if dr.status = 200 then "🗑️  Successfully deleted " ++ toString ids.length ++ " vectors."
                 else "❌ Delete failed: " ++ dr.text])

/-- The five actions of the command dispatcher. -/
inductive CliAction where
  | listAction : CliAction
  | viewAction : CliAction
  | inspectAction : CliAction
  | deleteAllAction : CliAction
  | deleteChunkAction : CliAction
deriving DecidableEq, Repr

/-- The `if args.list / elif args.view / ...` dispatch of `__main__`:
the selected action, or `none` when usage help is printed. -/
def dispatch (a : Args) : Option CliAction :=
  if a.list then some CliAction.listAction
  else if a.view then some CliAction.viewAction
  else if a.inspect then some CliAction.inspectAction
  else if a.delete_all then some CliAction.deleteAllAction
  else if a.delete_chunk then some CliAction.deleteChunkAction
  else none

/-- The argparse flag corresponding to each action. -/
def actionFlag (act : CliAction) (a : Args) : Bool :=
  match act with
  | CliAction.listAction => a.list
  | CliAction.viewAction => a.view
  | CliAction.inspectAction => a.inspect
  | CliAction.deleteAllAction => a.delete_all
  | CliAction.deleteChunkAction => a.delete_chunk

/-- The fixed priority order of the dispatch chain. -/
def actionOrder : List CliAction :=
  [CliAction.listAction, CliAction.viewAction, CliAction.inspectAction,
   CliAction.deleteAllAction, CliAction.deleteChunkAction]

/-- Specification-side variant of the document-identifier resolution,
following the spec sentence literally: the value of `doc_id` when that
key is present, else `source` when present, else `filename` when
present, else the literal `"UNKNOWN"`.  It differs from the code
(`resolveDocId`), which skips keys whose value is present but falsy. -/
def resolveDocIdSpec (payload : List (String × Json)) : Json :=
  match assocLookup payload "doc_id" with
  | some v => v
  | none =>
    match assocLookup payload "source" with
    | some v => v
    | none =>
      match assocLookup payload "filename" with
      | some v => v
      | none => Json.str "UNKNOWN"

/-- The chunk list stored in the grouping dict for key `k` (empty when
the key is absent). -/
def groupChunks (m : List (Json × List Json)) (k : Json) : List Json :=
  match m with
  | [] => []
  | (k1, ts) :: rest => if k1 = k then ts else groupChunks rest k

/-- Absence of two adjacent slashes in a character list. -/
def noTwoSlashes : List Char → Bool
  | [] => true
  | [_] => true
  | a :: b :: rest => (!(a == '/') || !(b == '/')) && noTwoSlashes (b :: rest)

/-- A string with no two adjacent slash characters. -/
def NoDoubleSlash (s : String) : Prop :=
  noTwoSlashes s.data = true

/-- Fixture: arguments for a delete-all run on collection `docs` with
`--yes` set. -/
def argsDeleteAllYes : Args :=
  ⟨"localhost", 6333, false, none, false, false, false, true, false,
   some "docs", none, none, 100, 10, true⟩

/-- Fixture: arguments for a delete-chunk run on collection `docs`,
field `doc_id`, value `A`, with `--yes` set. -/
def argsDeleteChunkYes : Args :=
  ⟨"localhost", 6333, false, none, false, false, false, false, true,
   some "docs", some "doc_id", some "A", 100, 10, true⟩

/-- Fixture: delete-chunk arguments with the collection missing. -/
def argsDeleteChunkNoColl : Args :=
  ⟨"localhost", 6333, false, none, false, false, false, false, true,
   none, some "doc_id", some "A", 100, 10, true⟩

/-- Fixture: a 200 response with the given JSON body and empty text. -/
def respOk (body : Json) : Resp :=
  ⟨200, body, ""⟩

/-- Fixture: two points carrying ids 1 and 2. -/
def twoPoints : List Json :=
  [Json.obj [("id", Json.num 1)], Json.obj [("id", Json.num 2)]]

/-- Fixture: a scroll-response body with two points carrying ids 1, 2. -/
def twoPointsBody : Json :=
  Json.obj [("result", Json.obj [("points", Json.arr twoPoints)])]

/-- Fixture: a scroll-response body with one point that has no id. -/
def noIdBody : Json :=
  Json.obj [("result", Json.obj [("points",
    Json.arr [Json.obj [("payload", Json.obj [])]])])]

/-- Fixture: a payload whose `doc_id` is present but empty and whose
`source` is a non-empty string. -/
def emptyDocIdPayload : List (String × Json) :=
  [("doc_id", Json.str ""), ("source", Json.str "docA"), ("text", Json.str "hello")]

/-- Fixture: a string of 151 `a` characters. -/
def longStr : String :=
  String.mk (List.replicate 151 'a')

theorem noTwoSlashes_cons (a : Char) (l : List Char)
    (h1 : a ≠ '/' ∨ l.head? ≠ some '/') (h2 : noTwoSlashes l = true) :
    noTwoSlashes (a :: l) = true := by
  match l with
  | [] => rfl
  | b :: rest =>
    show ((!(a == '/') || !(b == '/')) && noTwoSlashes (b :: rest)) = true
    rw [h2, Bool.and_true]
    rcases h1 with h | h
    · simp [h]
    · have hb : b ≠ '/' := by
        intro hb
        exact h (by simp [hb])
      simp [hb]

theorem noTwoSlashes_append_left (l1 l2 : List Char)
    (h1 : '/' ∉ l1) (h2 : noTwoSlashes l2 = true) :
    noTwoSlashes (l1 ++ l2) = true := by
  induction l1 with
  | nil => simpa using h2
  | cons a t ih =>
    have ha : a ≠ '/' := fun h => h1 (h ▸ List.mem_cons_self a t)
    exact noTwoSlashes_cons a (t ++ l2) (Or.inl ha)
      (ih (fun hm => h1 (List.mem_cons_of_mem a hm)))

/-- C7: for every valid host string, port integer, path and https flag,
`make_url` returns `scheme://host:port/path` with scheme `https` when
the flag is set and `http` otherwise, and the part after the scheme
separator has no double slashes. -/
theorem make_url_wellformed (host : String) (port : Int) (path : String) (https : Bool)
    (_hhost : host ≠ "") (hhostSlash : '/' ∉ host.data)
    (hport : '/' ∉ (toString port).data)
    (_hpath : path.data.head? = some '/') (hpathSlash : NoDoubleSlash path) :
    make_url host port path https =
      (if https then "https" else "http") ++ "://" ++ (host ++ ":" ++ toString port ++ path) ∧
    NoDoubleSlash (host ++ ":" ++ toString port ++ path) := by
  constructor
  · simp [make_url, String.append_assoc]
  · unfold NoDoubleSlash
    have hcolon : (":" : String).data = [':'] := rfl
    have hdata : (host ++ ":" ++ toString port ++ path).data
        = host.data ++ (':' :: ((toString port).data ++ path.data)) := by
      rw [String.data_append, String.data_append, String.data_append, hcolon]
      simp [List.append_assoc]
    rw [hdata]
    apply noTwoSlashes_append_left _ _ hhostSlash
    apply noTwoSlashes_cons
    · exact Or.inl (by decide)
    · exact noTwoSlashes_append_left _ _ hport hpathSlash

theorem make_url_wellformed_witness :
    make_url "localhost" 6333 "/collections" false =
      (if false then "https" else "http") ++ "://" ++
        ("localhost" ++ ":" ++ toString (6333 : Int) ++ "/collections") ∧
    NoDoubleSlash ("localhost" ++ ":" ++ toString (6333 : Int) ++ "/collections") :=
  make_url_wellformed "localhost" 6333 "/collections" false
    (by decide) (by decide) (by decide) (by decide) rfl

theorem extractIds_eq_none_iff (l : List Json) :
    extractIds l = none ↔ ∃ p ∈ l, getItem p "id" = none := by
  induction l with
  | nil => simp [extractIds]
  | cons p rest ih =>
    cases hid : getItem p "id" with
    | none => simp [extractIds, hid]
    | some i =>
      cases hrest : extractIds rest with
      | none =>
        simp only [extractIds, hid, hrest]
        constructor
        · intro _
          obtain ⟨q, hq, hqid⟩ := ih.mp hrest
          exact ⟨q, List.mem_cons_of_mem p hq, hqid⟩
        · intro _; trivial
      | some is =>
        simp only [extractIds, hid, hrest]
        constructor
        · intro h; cases h
        · rintro ⟨q, hq, hqid⟩
          rcases List.mem_cons.mp hq with h | h
          · rw [h] at hqid; rw [hqid] at hid; cases hid
          · exact absurd (ih.mpr ⟨q, h, hqid⟩) (by rw [hrest]; intro h2; cases h2)

theorem extractIds_length (l : List Json) :
    ∀ ids, extractIds l = some ids → ids.length = l.length := by
  induction l with
  | nil => intro ids h; cases h; rfl
  | cons p rest ih =>
    intro ids h
    cases hid : getItem p "id" with
    | none => rw [extractIds, hid] at h; cases h
    | some i =>
      cases hrest : extractIds rest with
      | none => rw [extractIds, hid, hrest] at h; cases h
      | some is =>
        rw [extractIds, hid, hrest] at h
        cases h
        simp [ih is hrest]

/-- C1: with a collection name set, `delete_all` issues the single
delete request with body `filter` empty to the points-delete endpoint
if and only if `--yes` is set or the lowercased confirmation input
equals `y`; for any other confirmation it issues no request at all and
prints the cancellation message. -/
theorem delete_all_confirmation_gate (a : Args) (confirm : String) (resp : Resp)
    (hc : ostr_truthy a.collection = true) :
    (delete_all a confirm resp).1 =
      (if a.yes = true ∨ pyLower confirm = "y"
       then [deleteAllReq a (a.collection.getD "")] else []) ∧
    (¬(a.yes = true ∨ pyLower confirm = "y") →
      (delete_all a confirm resp).2 = ["Cancelled."]) := by
  by_cases hyes : a.yes = true
  · constructor
    · simp [delete_all, hc, hyes]
    · intro h; exact absurd (Or.inl hyes) h
  · by_cases hlow : pyLower confirm = "y"
    · constructor
      · simp [delete_all, hc, hyes, hlow]
      · intro h; exact absurd (Or.inr hlow) h
    · constructor
      · simp [delete_all, hc, hyes, hlow]
      · intro _; simp [delete_all, hc, hyes, hlow]

theorem delete_all_confirmation_gate_witness :
    (delete_all argsDeleteAllYes "n" (respOk Json.null)).1 =
      (if argsDeleteAllYes.yes = true ∨ pyLower "n" = "y"
       then [deleteAllReq argsDeleteAllYes (argsDeleteAllYes.collection.getD "")] else []) ∧
    (¬(argsDeleteAllYes.yes = true ∨ pyLower "n" = "y") →
      (delete_all argsDeleteAllYes "n" (respOk Json.null)).2 = ["Cancelled."]) :=
  delete_all_confirmation_gate argsDeleteAllYes "n" (respOk Json.null) (by decide)

/-- C2: with collection, chunk-field and value set and a 200 discovery
scroll of shape limit 1000 / no payload / no vector / exact-match must
filter: zero returned points issue no delete request and report no
matches; N returned points, after confirmation or with `--yes`, issue
exactly one delete request whose body lists exactly the N point ids in
order. -/
theorem delete_chunk_discovery_and_delete (a : Args) (confirm : String) (sr dr : Resp)
    (c f v : String)
    (hc : a.collection = some c) (hc1 : c ≠ "")
    (hf : a.chunk_field = some f) (hf1 : f ≠ "")
    (hv : a.value = some v) (hv1 : v ≠ "")
    (hs : sr.status = 200)
    (points : List Json) (hp : getPoints sr.body = some points) :
    (points = [] →
      delete_chunk a confirm sr dr =
        some ([chunkScrollReq a c f v],
          ["⚠️ No matching vectors found for " ++ f ++ " = " ++ v])) ∧
    (∀ ids, extractIds points = some ids → points ≠ [] →
      (a.yes = true ∨ pyLower confirm = "y") →
      ids.length = points.length ∧
      delete_chunk a confirm sr dr =
        some ([chunkScrollReq a c f v, chunkDeleteReq a c ids],
          ["Found " ++ toString ids.length ++ " vectors for " ++ f ++ " = " ++ v,
           if dr.status = 200
           then "🗑️  Successfully deleted " ++ toString ids.length ++ " vectors."
           else "❌ Delete failed: " ++ dr.text])) := by
  constructor
  · intro hempty
    subst hempty
    simp [delete_chunk, hc, hf, hv, hc1, hf1, hv1, ostr_truthy, hs, hp]
  · intro ids hids hne hyes
    refine ⟨extractIds_length points ids hids, ?_⟩
    have hne2 : points.isEmpty = false := by
      cases points with
      | nil => exact absurd rfl hne
      | cons q qs => rfl
    rcases hyes with hyes | hyes
    · simp [delete_chunk, hc, hf, hv, hc1, hf1, hv1, ostr_truthy, hs, hp, hne2, hids, hyes]
    · simp [delete_chunk, hc, hf, hv, hc1, hf1, hv1, ostr_truthy, hs, hp, hne2, hids, hyes]

theorem delete_chunk_discovery_and_delete_witness :
    (twoPoints = [] →
      delete_chunk argsDeleteChunkYes "n" (respOk twoPointsBody) (respOk Json.null) =
        some ([chunkScrollReq argsDeleteChunkYes "docs" "doc_id" "A"],
          ["⚠️ No matching vectors found for " ++ "doc_id" ++ " = " ++ "A"])) ∧
    (∀ ids, extractIds twoPoints = some ids → twoPoints ≠ [] →
      (argsDeleteChunkYes.yes = true ∨ pyLower "n" = "y") →
      ids.length = twoPoints.length ∧
      delete_chunk argsDeleteChunkYes "n" (respOk twoPointsBody) (respOk Json.null) =
        some ([chunkScrollReq argsDeleteChunkYes "docs" "doc_id" "A",
               chunkDeleteReq argsDeleteChunkYes "docs" ids],
          ["Found " ++ toString ids.length ++ " vectors for " ++ "doc_id" ++ " = " ++ "A",
           if (respOk Json.null).status = 200
           then "🗑️  Successfully deleted " ++ toString ids.length ++ " vectors."
           else "❌ Delete failed: " ++ (respOk Json.null).text])) :=
  delete_chunk_discovery_and_delete argsDeleteChunkYes "n"
    (respOk twoPointsBody) (respOk Json.null) "docs" "doc_id" "A"
    rfl (by decide) rfl (by decide) rfl (by decide) rfl twoPoints rfl

/-- C3: when the collection, the chunk-field or the value argument is
missing (falsy), `delete_chunk` prints a single local error message and
issues no HTTP request at all. -/
theorem delete_chunk_missing_arg_no_request (a : Args) (confirm : String) (sr dr : Resp)
    (h : ostr_truthy a.collection = false ∨ ostr_truthy a.chunk_field = false ∨
         ostr_truthy a.value = false) :
    ∃ msg, delete_chunk a confirm sr dr = some ([], [msg]) ∧
      (msg = "❌ Please specify --collection" ∨
       msg = "❌ Must specify both --chunk-field and --value for targeted delete.") := by
  by_cases h1 : ostr_truthy a.collection = true
  · have h2 : (!(ostr_truthy a.chunk_field) || !(ostr_truthy a.value)) = true := by
      rcases h with h | h | h
      · rw [h1] at h; cases h
      · rw [h]; rfl
      · rw [h]; simp
    refine ⟨"❌ Must specify both --chunk-field and --value for targeted delete.", ?_, Or.inr rfl⟩
    simp only [delete_chunk, h1, Bool.not_true, Bool.false_eq_true, if_false, reduceIte]
    rw [if_pos h2]
  · have h1f : ostr_truthy a.collection = false := by
      cases hcase : ostr_truthy a.collection
      · rfl
      · exact absurd hcase h1
    refine ⟨"❌ Please specify --collection", ?_, Or.inl rfl⟩
    simp [delete_chunk, h1f]

theorem delete_chunk_missing_arg_no_request_witness :
    ∃ msg, delete_chunk argsDeleteChunkNoColl "y" (respOk twoPointsBody) (respOk Json.null) =
      some ([], [msg]) ∧
      (msg = "❌ Please specify --collection" ∨
       msg = "❌ Must specify both --chunk-field and --value for targeted delete.") :=
  delete_chunk_missing_arg_no_request argsDeleteChunkNoColl "y"
    (respOk twoPointsBody) (respOk Json.null) (Or.inl rfl)

/-- C10: on the delete-chunk path that reaches id extraction, the
unguarded item access on `"id"` faults as soon as one returned point
lacks the key, and succeeds when every point has it; the extraction is
`none` exactly when some point lacks the key. -/
theorem delete_chunk_unguarded_id_access (a : Args) (confirm : String) (sr dr : Resp)
    (hc : ostr_truthy a.collection = true) (hf : ostr_truthy a.chunk_field = true)
    (hv : ostr_truthy a.value = true) (hs : sr.status = 200)
    (points : List Json) (hp : getPoints sr.body = some points) (hne : points ≠ []) :
    ((∃ p ∈ points, getItem p "id" = none) → delete_chunk a confirm sr dr = none) ∧
    ((∀ p ∈ points, (getItem p "id").isSome = true) →
      (delete_chunk a confirm sr dr).isSome = true) ∧
    (extractIds points = none ↔ ∃ p ∈ points, getItem p "id" = none) := by
  have hne2 : points.isEmpty = false := by
    cases points with
    | nil => exact absurd rfl hne
    | cons q qs => rfl
  refine ⟨?_, ?_, extractIds_eq_none_iff points⟩
  · intro hex
    have hids : extractIds points = none := (extractIds_eq_none_iff points).mpr hex
    simp [delete_chunk, hc, hf, hv, hs, hp, hne2, hids]
  · intro hall
    have hids : extractIds points ≠ none := by
      intro hnone
      obtain ⟨p, hmem, hpid⟩ := (extractIds_eq_none_iff points).mp hnone
      have h2 := hall p hmem
      rw [hpid] at h2
      simp at h2
    obtain ⟨ids, hids2⟩ := Option.ne_none_iff_exists'.mp hids
    by_cases hyes : (!a.yes && pyLower confirm != "y") = true
    · simp [delete_chunk, hc, hf, hv, hs, hp, hne2, hids2, hyes]
    · simp [delete_chunk, hc, hf, hv, hs, hp, hne2, hids2, hyes]

theorem delete_chunk_unguarded_id_access_witness :
    ((∃ p ∈ [Json.obj [("payload", Json.obj [])]], getItem p "id" = none) →
      delete_chunk argsDeleteChunkYes "y" (respOk noIdBody) (respOk Json.null) = none) ∧
    ((∀ p ∈ [Json.obj [("payload", Json.obj [])]], (getItem p "id").isSome = true) →
      (delete_chunk argsDeleteChunkYes "y" (respOk noIdBody) (respOk Json.null)).isSome = true) ∧
    (extractIds [Json.obj [("payload", Json.obj [])]] = none ↔
      ∃ p ∈ [Json.obj [("payload", Json.obj [])]], getItem p "id" = none) :=
  delete_chunk_unguarded_id_access argsDeleteChunkYes "y" (respOk noIdBody) (respOk Json.null)
    (by decide) (by decide) (by decide) rfl
    [Json.obj [("payload", Json.obj [])]] rfl (by decide)

theorem groupChunks_addChunk (m : List (Json × List Json)) (k t : Json) (k1 : Json) :
    groupChunks (addChunk m k t) k1 =
      if k1 = k then groupChunks m k1 ++ [t] else groupChunks m k1 := by
  induction m with
  | nil =>
    by_cases h : k1 = k
    · subst h; simp [addChunk, groupChunks]
    · have h2 : ¬(k = k1) := fun hh => h hh.symm
      simp [addChunk, groupChunks, h, h2]
  | cons kv rest ih =>
    obtain ⟨k2, ts⟩ := kv
    by_cases h2 : k2 = k
    · subst h2
      by_cases h3 : k1 = k2
      · subst h3; simp [addChunk, groupChunks]
      · have h4 : ¬(k2 = k1) := fun hh => h3 hh.symm
        simp [addChunk, groupChunks, h3, h4]
    · by_cases h3 : k2 = k1
      · subst h3
        simp [addChunk, groupChunks, h2]
      · simp [addChunk, groupChunks, h2, h3, ih]

theorem viewGroupsAux_characterization (points : List Json) :
    ∀ m, (∀ p ∈ points, (pointPayload p).isSome = true) →
    ∃ m2, viewGroupsAux m points = some m2 ∧
      ∀ k, groupChunks m2 k =
        groupChunks m k ++ points.filterMap (fun p =>
          match pointPayload p with
          | none => none
          | some kvs => if resolveDocId kvs = k then some (chunkText kvs) else none) := by
  induction points with
  | nil => exact fun m _ => ⟨m, rfl, fun k => by simp [viewGroupsAux]⟩
  | cons p rest ih =>
    intro m h
    have hp : (pointPayload p).isSome = true := h p (List.mem_cons_self p rest)
    obtain ⟨kvs, hkvs⟩ := Option.isSome_iff_exists.mp hp
    obtain ⟨m2, hm2, hchar⟩ :=
      ih (addChunk m (resolveDocId kvs) (chunkText kvs))
        (fun q hq => h q (List.mem_cons_of_mem p hq))
    refine ⟨m2, ?_, ?_⟩
    · rw [viewGroupsAux, hkvs]
      exact hm2
    · intro k
      rw [hchar k, groupChunks_addChunk]
      by_cases hk : resolveDocId kvs = k
      · have hk2 : k = resolveDocId kvs := hk.symm
        simp only [List.filterMap_cons, hkvs, hk, if_pos, if_pos hk2]
        simp [List.append_assoc]
      · have hk2 : ¬(k = resolveDocId kvs) := fun hh => hk hh.symm
        simp only [List.filterMap_cons, hkvs, if_neg hk, if_neg hk2]

/-- C4 amended: `view_collection` groups each well-formed point under
the first truthy value among the `doc_id`, `source` and `filename`
payload fields (the literal `UNKNOWN` when none is truthy, as computed
by `resolveDocId`), appending the `text` payload value when truthy and
the empty string otherwise (`chunkText`); each group holds, in point
order, exactly the chunk texts of the points that resolve to its key. -/
theorem view_grouping_truthy_rule (points : List Json)
    (h : ∀ p ∈ points, (pointPayload p).isSome = true) :
    ∃ m, viewGroups points = some m ∧
      ∀ k, groupChunks m k =
        points.filterMap (fun p =>
          match pointPayload p with
          | none => none
          | some kvs => if resolveDocId kvs = k then some (chunkText kvs) else none) := by
  obtain ⟨m2, h1, h2⟩ := viewGroupsAux_characterization points [] h
  refine ⟨m2, h1, fun k => ?_⟩
  have h3 := h2 k
  simpa [groupChunks] using h3

theorem view_grouping_truthy_rule_witness :
    ∃ m, viewGroups
        [Json.obj [("payload", Json.obj [("doc_id", Json.str "A"), ("text", Json.str "hello")])],
         Json.obj [("payload", Json.obj [("doc_id", Json.str "A"), ("text", Json.str "world")])]] =
      some m ∧
      ∀ k, groupChunks m k =
        [Json.obj [("payload", Json.obj [("doc_id", Json.str "A"), ("text", Json.str "hello")])],
         Json.obj [("payload", Json.obj [("doc_id", Json.str "A"), ("text", Json.str "world")])]].filterMap
          (fun p =>
            match pointPayload p with
            | none => none
            | some kvs => if resolveDocId kvs = k then some (chunkText kvs) else none) :=
  view_grouping_truthy_rule _ (by decide)

/-- C4 counterexample: a payload whose `doc_id` key is present with the
empty-string value is grouped under its `source` value `docA`, not
under the present `doc_id`; the presence-based resolution stated by the
claim (`resolveDocIdSpec`) would give the empty string instead. -/
theorem view_grouping_presence_rule_counterexample :
    viewGroups [Json.obj [("payload", Json.obj emptyDocIdPayload)]] =
      some [(Json.str "docA", [Json.str "hello"])] ∧
    resolveDocIdSpec emptyDocIdPayload = Json.str "" ∧
    Json.str "docA" ≠ Json.str "" := by
  refine ⟨by decide, rfl, by decide⟩

/-- C5: the per-document sample printed by `view_collection` is the
first chunk text truncated to 100 characters with a trailing ellipsis
when that text is a non-empty string, and the literal no-text marker
otherwise; for texts longer than 100 characters the sample is exactly
the first 100 characters followed by the ellipsis. -/
theorem view_sample_truncation (chunks : List Json) (s : String) (rest : List Json)
    (hc : chunks = Json.str s :: rest) :
    sampleOf chunks = some (if s = "" then "(no text)" else strTake s 100 ++ "...") ∧
    (100 < s.length →
      sampleOf chunks = some (strTake s 100 ++ "...") ∧ (strTake s 100).length = 100) := by
  subst hc
  constructor
  · by_cases h : s = ""
    · simp [sampleOf, Json.truthy, h]
    · simp [sampleOf, Json.truthy, h]
  · intro hlen
    have hne : s ≠ "" := by
      intro h
      subst h
      exact absurd hlen (by decide)
    refine ⟨by simp [sampleOf, Json.truthy, hne], ?_⟩
    show (String.mk (s.data.take 100)).length = 100
    have h1 : (String.mk (s.data.take 100)).length = (s.data.take 100).length := rfl
    rw [h1, List.length_take]
    exact Nat.min_eq_left (Nat.le_of_lt hlen)

theorem view_sample_truncation_witness :
    sampleOf [Json.str "hello"] =
      some (if "hello" = "" then "(no text)" else strTake "hello" 100 ++ "...") ∧
    (100 < "hello".length →
      sampleOf [Json.str "hello"] = some (strTake "hello" 100 ++ "...") ∧
      (strTake "hello" 100).length = 100) :=
  view_sample_truncation [Json.str "hello"] "hello" [] rfl

/-- C9: for a non-empty first chunk text the sample printed by
`view_collection` always carries the trailing ellipsis, even when the
text is 100 characters or shorter, in which case the sample is the full
text followed by the ellipsis; the raw text is never the whole sample. -/
theorem view_sample_ellipsis_always (chunks : List Json) (s : String) (rest : List Json)
    (hc : chunks = Json.str s :: rest) (hne : s ≠ "") :
    sampleOf chunks = some (strTake s 100 ++ "...") ∧
    (s.length ≤ 100 → sampleOf chunks = some (s ++ "...")) ∧
    (∀ t, sampleOf chunks = some t → ∃ u, t = u ++ "...") := by
  subst hc
  have h1 : sampleOf (Json.str s :: rest) = some (strTake s 100 ++ "...") := by
    simp [sampleOf, Json.truthy, hne]
  refine ⟨h1, ?_, ?_⟩
  · intro hle
    have h2 : strTake s 100 = s := by
      show String.mk (s.data.take 100) = s
      rw [List.take_of_length_le hle]
    rw [h1, h2]
  · intro t ht
    rw [h1] at ht
    exact ⟨strTake s 100, (Option.some.inj ht).symm⟩

theorem view_sample_ellipsis_always_witness :
    sampleOf [Json.str "hi"] = some (strTake "hi" 100 ++ "...") ∧
    ("hi".length ≤ 100 → sampleOf [Json.str "hi"] = some ("hi" ++ "...")) ∧
    (∀ t, sampleOf [Json.str "hi"] = some t → ∃ u, t = u ++ "...") :=
  view_sample_ellipsis_always [Json.str "hi"] "hi" [] rfl (by decide)

/-- C6: `inspect_collection` prints a string payload value longer than
150 characters as exactly its first 150 characters followed by the
ellipsis, keeps strings of at most 150 characters unmodified, keeps
every non-string value as-is, and renders every payload key/value pair
through this formatting. -/
theorem inspect_value_truncation (v : Json) :
    (∀ s, v = Json.str s → 150 < s.length →
      formatVal v = Json.str (strTake s 150 ++ "...") ∧ (strTake s 150).length = 150) ∧
    (∀ s, v = Json.str s → s.length ≤ 150 → formatVal v = v) ∧
    ((∀ s, v ≠ Json.str s) → formatVal v = v) ∧
    (∀ kvs k, (k, v) ∈ kvs → (k, formatVal v) ∈ inspectRenderPairs kvs) := by
  refine ⟨?_, ?_, ?_, ?_⟩
  · intro s hv hlen
    subst hv
    refine ⟨by simp [formatVal, hlen], ?_⟩
    show (String.mk (s.data.take 150)).length = 150
    have h1 : (String.mk (s.data.take 150)).length = (s.data.take 150).length := rfl
    rw [h1, List.length_take]
    exact Nat.min_eq_left (Nat.le_of_lt hlen)
  · intro s hv hlen
    subst hv
    simp [formatVal, Nat.not_lt.mpr hlen]
  · intro h
    cases v with
    | str s => exact absurd rfl (h s)
    | null => rfl
    | bool b => rfl
    | num n => rfl
    | arr l => rfl
    | obj l => rfl
  · intro kvs k hk
    show (k, formatVal v) ∈ kvs.map (fun kv => (kv.1, formatVal kv.2))
    exact List.mem_map.mpr ⟨(k, v), hk, rfl⟩

set_option maxRecDepth 4000 in
theorem inspect_value_truncation_witness :
    formatVal (Json.str longStr) = Json.str (strTake longStr 150 ++ "...") ∧
    (strTake longStr 150).length = 150 :=
  (inspect_value_truncation (Json.str longStr)).1 longStr rfl (by decide)

/-- C8: the dispatcher executes exactly the first set action flag in the
fixed priority order list, view, inspect, delete-all, delete-chunk,
ignoring all later set flags; with no action flag set it selects no
action (usage help). -/
theorem dispatch_priority_order (a : Args) :
    dispatch a = actionOrder.find? (fun act => actionFlag act a) ∧
    (dispatch a = none ↔
      a.list = false ∧ a.view = false ∧ a.inspect = false ∧
      a.delete_all = false ∧ a.delete_chunk = false) := by
  obtain ⟨h, po, ht, ak, l, vw, insp, da, dc, col, cf, vl, bs, lim, y⟩ := a
  cases l <;> cases vw <;> cases insp <;> cases da <;> cases dc <;>
    simp [dispatch, actionOrder, actionFlag, List.find?]
